import Mathlib

/-!
Shallow embedding of `main.py` from the `blitz` repository: a Blender
scene-assembly script.  Host-application state (the `bpy` scene graph) is
modelled explicitly: objects, materials and the filesystem are plain data,
mutation is state passing, Python exceptions are an `Except` error channel.

Real-number quantities (coordinates, dimensions) are modelled over `ℚ`:
the script's arithmetic is plain `+ - * /` on decimal constants, which the
rational model captures exactly.  Angles produced by `math.radians` are
rational multiples of π throughout the program, so an angle is represented
exactly by its coefficient of π (see `radians`).

Python string primitives (`in`, `split`, `endswith`, lexicographic `<`)
are modelled by executable functions on `String.data` below, because the
corresponding Lean built-ins do not reduce inside the kernel.
-/

/-- Python `needle in hay` at the start: `hay` begins with `needle`. -/
def listIsPre : List Char → List Char → Bool
  | [], _ => true
  | _ :: _, [] => false
  | a :: s, b :: t => a = b && listIsPre s t

/-- Python substring test `needle in hay` on character lists. -/
def listIsInf (needle : List Char) : List Char → Bool
  | [] => decide (needle = [])
  | c :: t => listIsPre needle (c :: t) || listIsInf needle t

/-- Python `needle in hay` for strings (substring containment). -/
def pyIn (needle hay : String) : Bool :=
  listIsInf needle.data hay.data

/-- Python `s.endswith(suf)`. -/
def pyEndsWith (s suf : String) : Bool :=
  listIsPre suf.data.reverse s.data.reverse

/-- Python `s.split(sep)` for a single-character separator `sep`
(the script only splits on `"="`, `","` and `"."`). -/
def splitChar (sep : Char) : List Char → List (List Char)
  | [] => [[]]
  | c :: rest =>
    if c = sep then [] :: splitChar sep rest
    else
      match splitChar sep rest with
      | [] => [[c]]
      | t :: ts => (c :: t) :: ts

/-- Python `s.split(sep)[0]` for a multi-character separator: the part of
`s` before the first occurrence of `sep` (all of `s` when `sep` does not
occur).  Used for `p.split(".obj")[0]` in `load_obj_files`. -/
def beforeSub (sep : List Char) : List Char → List Char
  | [] => []
  | c :: rest =>
    if listIsPre sep (c :: rest) then []
    else c :: beforeSub sep rest

/-- Value of a decimal digit character, `none` on a non-digit. -/
def digVal (c : Char) : Option Nat :=
  if c.isDigit then some (c.toNat - 48) else none

/-- Value of a nonempty all-digit character list. -/
def digitsVal (cs : List Char) : Option Nat :=
  if cs = [] then none
  else cs.foldl (fun acc c => acc.bind fun n => (digVal c).map fun d => 10 * n + d) (some 0)

/-- Value of a possibly empty all-digit character list (Python accepts
`"5."` and `".5"`, where one side of the point is empty). -/
def digitsVal0 (cs : List Char) : Option Nat :=
  if cs = [] then some 0 else digitsVal cs

/-- Model of Python `float()` on an unsigned decimal literal: digits with
at most one decimal point, at least one digit overall.  (Exponents,
`inf`/`nan` and surrounding whitespace, which the script never feeds to
`float`, are outside the model and rejected.) -/
def parseUnsigned (cs : List Char) : Option ℚ :=
  match splitChar '.' cs with
  | [ip] => (digitsVal ip).map fun n => (n : ℚ)
  | [ip, fp] =>
    if ip = [] && fp = [] then none
    else
      (digitsVal0 ip).bind fun n =>
        (digitsVal0 fp).map fun f => (n : ℚ) + (f : ℚ) / ((10 : ℚ) ^ fp.length)
  | _ => none

/-- Model of Python `float()` on a decimal literal with optional sign. -/
def parseFloatQ (cs : List Char) : Option ℚ :=
  match cs with
  | '-' :: rest => (parseUnsigned rest).map fun q => -q
  | '+' :: rest => parseUnsigned rest
  | _ => parseUnsigned cs

/-- Python `tuple(map(float, s.split(",")))`: all comma-separated pieces
parsed as floats, `none` when any piece fails (a `ValueError`). -/
def parseFloatList (cs : List Char) : Option (List ℚ) :=
  (splitChar ',' cs).mapM parseFloatQ

/-- Model of `math.radians`.  `math.radians d = d·π/180`; every angle in
the program is a rational multiple of π, so an angle is represented by its
coefficient of π: `radians d` is the rational `c` with `d·π/180 = c·π`. -/
def radians (d : ℚ) : ℚ := d / 180

/-- Python `sorted` on strings: stable sort by code-point lexicographic
order.  String order is antisymmetric, so the sorted permutation is unique
and `insertionSort` computes exactly Python's result. -/
def pySortedStr (l : List String) : List String :=
  l.insertionSort (fun a b => a.data ≤ b.data)

instance : DecidableRel (fun a b : String => a.data ≤ b.data) :=
  fun a b => (inferInstance : Decidable (a.data ≤ b.data))

instance : IsTotal String (fun a b : String => a.data ≤ b.data) :=
  ⟨fun a b => IsTotal.total (r := (· ≤ · : List Char → List Char → Prop)) a.data b.data⟩

instance : IsTrans String (fun a b : String => a.data ≤ b.data) :=
  ⟨fun _ _ _ hab hbc =>
    IsTrans.trans (r := (· ≤ · : List Char → List Char → Prop)) _ _ _ hab hbc⟩

/-- Model of `os.path.join(a, b)` on POSIX paths as the script uses it. -/
def path_join (a b : String) : String :=
  if listIsPre "/".data b.data then b
  else if a = "" then b
  else if pyEndsWith a "/" then a ++ b
  else a ++ "/" ++ b

/-- Python `max` of a nonempty list (`none` models the `ValueError` that
`max` raises on an empty sequence). -/
def pyMax : List ℚ → Option ℚ
  | [] => none
  | h :: t => some (t.foldl max h)

/-- Python `min` of a nonempty list (`none` models the `ValueError`). -/
def pyMin : List ℚ → Option ℚ
  | [] => none
  | h :: t => some (t.foldl min h)

/-! ## Data model: host-application state -/

/-- One exception / exit channel for the script.  `help()` immediately
precedes every `exit(1)`, so `systemExit 1` also records that the usage
message was printed. -/
inductive PyErr where
  | runtimeError (msg : String)
  | indexError
  | valueError
  | fileNotFoundError (path : String)
  | systemExit (code : Nat)
deriving DecidableEq

/-- Whether an `Except` computation finished without raising. -/
def isOkE {α : Type} : Except PyErr α → Bool
  | .ok _ => true
  | .error _ => false

/-- A Blender scene object as the script observes it: `obj.name`,
`obj.data.name`, `obj.dimensions`, `obj.location`, `obj.bound_box`
(a list of corner points `(bb[0], bb[1], bb[2])`), the two visibility
flags, and the material name held by each material slot. -/
structure BObj where
  name : String
  data_name : String
  dimensions : ℚ × ℚ × ℚ
  location : ℚ × ℚ × ℚ
  bound_box : List (ℚ × ℚ × ℚ)
  hide_viewport : Bool
  hide_render : Bool
  material_slots : List String
deriving DecidableEq, Inhabited

/-- A material in `bpy.data.materials`: its name, the shader-node types in
its node tree (in creation order), and the node links as
(from-node type, to-node type) pairs.  Node input values such as the
emission strength sit below this granularity. -/
structure BMaterial where
  name : String
  nodes : List String
  links : List (String × String)
deriving DecidableEq

/-- The default node tree Blender installs when `use_nodes` is enabled
(the script clears it immediately afterwards). -/
def use_nodes_default : List String :=
  ["ShaderNodeBsdfPrincipled", "ShaderNodeOutputMaterial"]

/-- `bpy.data.materials.get(n)`: first material with the given name. -/
def mats_get (mats : List BMaterial) (n : String) : Option BMaterial :=
  mats.find? (fun m => m.name = n)

/-- `bpy.data.materials.remove` applied to `mats_get mats n`. -/
def mats_removeName (mats : List BMaterial) (n : String) : List BMaterial :=
  mats.eraseP (fun m => m.name = n)

/-- One `keyframe_insert` call: scene frame, index of the object in the
loaded list, the `data_path` argument, and the value the flag has at the
moment of insertion. -/
structure Keyframe where
  frame : Nat
  objIdx : Nat
  path : String
  value : Bool
deriving DecidableEq

/-- Geometry the OBJ importer produces for a file: a mesh import is a read
of external file content, modelled as an oracle from path to geometry. -/
structure MeshGeom where
  dimensions : ℚ × ℚ × ℚ
  location : ℚ × ℚ × ℚ
  bound_box : List (ℚ × ℚ × ℚ)
  material_slots : List String
deriving DecidableEq

/-- The filesystem as the script reads it: directory name ↦ entries. -/
structure FS where
  dirs : List (String × List String)
deriving DecidableEq

/-- `os.path.exists` (the script only applies it to directories). -/
def fs_exists (fs : FS) (p : String) : Bool :=
  (fs.dirs.lookup p).isSome

/-- `os.listdir`: `none` models the `FileNotFoundError` on a missing
directory. -/
def fs_listdir (fs : FS) (p : String) : Option (List String) :=
  fs.dirs.lookup p

/-- Camera parameters mutated by the CLI loop: `cam_loc` is a tuple of
floats, `cam_rot` a tuple of angles as coefficients of π (see `radians`). -/
structure CamArgs where
  cam_loc : List ℚ
  cam_rot : List ℚ
deriving DecidableEq

/-- The camera object created by `place_camera`. -/
structure BCamera where
  location : List ℚ
  rotation_euler : List ℚ
deriving DecidableEq

/-! ## Embedded program functions -/

/-- Embeds `fetch_obj_file_paths`: guard `os.path.exists`, filter
`.obj`-suffixed entries of `os.listdir`, sort, join each with the root. -/
def fetch_obj_file_paths (fs : FS) (root_dir : String) :
    Except PyErr (List String) :=
  if fs_exists fs root_dir = false then
    .error (.runtimeError (root_dir ++ " does not exist!"))
  else
    match fs_listdir fs root_dir with
    | none => .error (.fileNotFoundError root_dir)
    | some entries =>
      .ok ((pySortedStr (entries.filter fun p => pyEndsWith p ".obj")).map
        fun p => path_join root_dir p)

/-- Embeds `load_obj_files`: each path is imported through the geometry
oracle and the object is renamed to `p.split(".obj")[0]` (both `obj.name`
and `obj.data.name`). -/
def load_obj_files (geom : String → MeshGeom) (paths : List String) :
    List BObj :=
  paths.map fun p =>
    let nm : String := ⟨beforeSub ".obj".data p.data⟩
    { name := nm
      data_name := nm
      dimensions := (geom p).dimensions
      location := (geom p).location
      bound_box := (geom p).bound_box
      hide_viewport := false
      hide_render := false
      material_slots := (geom p).material_slots }

/-- The bounding-box extent computation shared verbatim by `scale_assets`
and `position_assets`: collect the corners' coordinates into `xpts`,
`ypts`, `zpts` and take `max - min` per axis.  `none` models the
`ValueError` of `max`/`min` on an empty corner list. -/
def bb_extents (bbs : List (ℚ × ℚ × ℚ)) : Option (ℚ × ℚ × ℚ) :=
  let xpts := bbs.map fun bb => bb.1
  let ypts := bbs.map fun bb => bb.2.1
  let zpts := bbs.map fun bb => bb.2.2
  match pyMax xpts, pyMin xpts, pyMax ypts, pyMin ypts, pyMax zpts, pyMin zpts with
  | some xM, some xm, some yM, some ym, some zM, some zm =>
    some (xM - xm, yM - ym, zM - zm)
  | _, _, _, _, _, _ => none

/-- One iteration of the `scale_assets` loop body on object `o`, given the
current values of the loop-local variables: `x`, `z` (never rebound), the
current `y`, and `p` = `all_obj_objects[0].dimensions` y-component (the
value the light branch rebinds `y` to before using it). -/
def scaleStepObj (x z p y : ℚ) (o : BObj) : BObj :=
  let o1 :=
    if o.data_name = "assets/backdrop" then
      { o with dimensions := (x * 3, y * 2.5, z * 1.5) }
    else o
  if o.data_name = "assets/light" then
    { o1 with dimensions := (x * 0.5, p, z * 0.5) }
  else o1

/-- The `scale_assets` loop: `y` is threaded because the light branch
rebinds it (`_, y, _ = all_obj_objects[0].dimensions`), which leaks into
later iterations. -/
def scaleList (x z p : ℚ) : ℚ → List BObj → List BObj
  | _, [] => []
  | y, o :: rest =>
    scaleStepObj x z p y o ::
      scaleList x z p (if o.data_name = "assets/light" then p else y) rest

/-- Embeds `scale_assets`.  `all_obj_objects[0]` raises `IndexError` on an
empty list; `max` on an empty corner list raises `ValueError`. -/
def scale_assets (all_obj_objects all_asset_obj_objects : List BObj) :
    Except PyErr (List BObj) :=
  match all_obj_objects with
  | [] => .error .indexError
  | prim :: _ =>
    match bb_extents prim.bound_box with
    | none => .error .valueError
    | some (x, y, z) =>
      .ok (scaleList x z prim.dimensions.2.1 y all_asset_obj_objects)

/-- One iteration of the `position_assets` loop body (no variable is
rebound there, so the loop is a plain map). -/
def positionStepObj (x y z : ℚ) (o : BObj) : BObj :=
  let o1 :=
    if o.data_name = "assets/backdrop" then
      { o with location := (-x * 0.5, y, z * 0.1) }
    else o
  if o.data_name = "assets/light" then
    { o1 with location := (-x * 0.5, y, z * 1.2) }
  else o1

/-- Embeds `position_assets`. -/
def position_assets (all_obj_objects all_asset_obj_objects : List BObj) :
    Except PyErr (List BObj) :=
  match all_obj_objects with
  | [] => .error .indexError
  | prim :: _ =>
    match bb_extents prim.bound_box with
    | none => .error .valueError
    | some (x, y, z) =>
      .ok (all_asset_obj_objects.map (positionStepObj x y z))

/-- The fresh "Hair" material built by `set_material_for_collection`:
`materials.new`, `use_nodes = True`, clear all nodes, add an output node
and a principled-hair BSDF, link them. -/
def hairMaterial : BMaterial :=
  { name := "Hair"
    nodes := ["ShaderNodeOutputMaterial", "ShaderNodeBsdfHairPrincipled"]
    links := [("ShaderNodeBsdfHairPrincipled", "ShaderNodeOutputMaterial")] }

/-- Embeds `set_material_for_collection` (list argument case; the `None`
branch re-reads host collection state and is outside the model): delete
any existing "Hair" material, create a fresh one, and assign it to every
slot of every object whose name contains `"simulation_output"`. -/
def set_material_for_collection (mats : List BMaterial) (all_obj_objects : List BObj) :
    List BMaterial × List BObj :=
  let mats1 :=
    if (mats_get mats "Hair").isSome then mats_removeName mats "Hair" else mats
  let mats2 := mats1 ++ [hairMaterial]
  let objs :=
    all_obj_objects.map fun obj =>
      if pyIn "simulation_output" obj.name then
        { obj with material_slots := obj.material_slots.map fun _ => "Hair" }
      else obj
  (mats2, objs)

/-- The fresh "Light" material built by `make_emission_material`
(the emission strength `inputs[1].default_value = 5` sits below the node
granularity of `BMaterial`). -/
def lightMaterial : BMaterial :=
  { name := "Light"
    nodes := ["ShaderNodeOutputMaterial", "ShaderNodeEmission"]
    links := [("ShaderNodeEmission", "ShaderNodeOutputMaterial")] }

/-- Embeds `make_emission_material`: delete any existing "Light"
material, create a fresh one, and assign it to every slot of every asset
object whose `obj.name` is exactly `"assets/light"`. -/
def make_emission_material (mats : List BMaterial) (asset_objs : List BObj) :
    List BMaterial × List BObj :=
  let mats1 :=
    if (mats_get mats "Light").isSome then mats_removeName mats "Light" else mats
  let mats2 := mats1 ++ [lightMaterial]
  let objs :=
    asset_objs.map fun obj =>
      if obj.name = "assets/light" then
        { obj with material_slots := obj.material_slots.map fun _ => "Light" }
      else obj
  (mats2, objs)

/-- Embeds `place_camera`: a new camera object with the given location
and rotation. -/
def place_camera (loc rot : List ℚ) : BCamera :=
  { location := loc, rotation_euler := rot }

/-- Result state of `build_animation_from_obj_files`. -/
structure AnimResult where
  frame_start : ℤ
  frame_end : ℤ
  objs : List BObj
  keyframes : List Keyframe
  mats : List BMaterial
deriving DecidableEq

/-- The inner loop of `build_animation_from_obj_files` at scene frame
`frame`: every object gets its visibility flags set (`False` exactly for
the object whose index equals `frame`) and a keyframe inserted for each of
the two flags, in enumeration order. -/
def setFrameVis (frame : Nat) (objs : List BObj) : List BObj × List Keyframe :=
  (objs.enum.map fun p =>
      { p.2 with
        hide_viewport := decide (p.1 ≠ frame)
        hide_render := decide (p.1 ≠ frame) },
   objs.enum.flatMap fun p =>
      [⟨frame, p.1, "hide_viewport", decide (p.1 ≠ frame)⟩,
       ⟨frame, p.1, "hide_render", decide (p.1 ≠ frame)⟩])

/-- Embeds `build_animation_from_obj_files`: frame range `[0, n-1]`, the
keyframing loop over `range(obj_frame_end)` = `0 .. n-2`, then
`set_material_for_collection`. -/
def build_animation_from_obj_files (mats : List BMaterial) (all_obj_objects : List BObj) :
    AnimResult :=
  let obj_frame_end : Nat := all_obj_objects.length - 1
  let st :=
    (List.range obj_frame_end).foldl
      (fun (st : List BObj × List Keyframe) frame =>
        let r := setFrameVis frame st.1
        (r.1, st.2 ++ r.2))
      (all_obj_objects, [])
  let r := set_material_for_collection mats st.1
  { frame_start := 0
    frame_end := (all_obj_objects.length : ℤ) - 1
    objs := r.2
    keyframes := st.2
    mats := r.1 }

/-! ## Embedded `__main__` block -/

/-- Defaults assigned to `cam_loc` / `cam_rot` at the top of `__main__`. -/
def camDefaults : CamArgs :=
  { cam_loc := [-32, 161.5, 73]
    cam_rot := [radians 75, 0, radians 180] }

/-- One iteration of the `for opt in sys.argv` loop: substring-match
`"--cam_loc"` / `"--cam_rot"`, take `opt.split("=")[1]` (IndexError when
no `=`), parse the comma-separated floats (ValueError on a bad float), and
overwrite the corresponding tuple; `--cam_rot` components pass through
`math.radians`. -/
def camStep (st : CamArgs) (opt : String) : Except PyErr CamArgs :=
  match
    (if pyIn "--cam_loc" opt then
      match (splitChar '=' opt.data)[1]? with
      | none => .error .indexError
      | some v =>
        match parseFloatList v with
        | none => .error .valueError
        | some xs => .ok { st with cam_loc := xs }
    else .ok st : Except PyErr CamArgs)
  with
  | .error e => .error e
  | .ok st1 =>
    if pyIn "--cam_rot" opt then
      match (splitChar '=' opt.data)[1]? with
      | none => .error .indexError
      | some v =>
        match parseFloatList v with
        | none => .error .valueError
        | some xs => .ok { st1 with cam_rot := xs.map radians }
    else .ok st1

/-- The whole `for opt in sys.argv` loop. -/
def parseCamLoop (st : CamArgs) : List String → Except PyErr CamArgs
  | [] => .ok st
  | o :: rest =>
    match camStep st o with
    | .error e => .error e
    | .ok st1 => parseCamLoop st1 rest

/-- CLI camera-argument parsing of `__main__`: the defaults followed by
the `for opt in sys.argv` loop. -/
def parseCamArgs (argv : List String) : Except PyErr CamArgs :=
  parseCamLoop camDefaults argv

/-- Observable final state of a completed `__main__` run. -/
structure MainOut where
  cam : CamArgs
  root_dir : String
  objs : List BObj
  assets : List BObj
  mats : List BMaterial
  keyframes : List Keyframe
  frame_start : ℤ
  frame_end : ℤ
  camera : BCamera
  engine : String
  device : String
  saved : Bool
deriving DecidableEq

/-- Embeds the `__main__` block: the two separator guards (the second
compares `sys.argv.index("--")` with `len(sys.argv)` exactly as the source
does), the camera-argument loop, `root_dir = sys.argv[index("--") + 1]`,
then the pipeline fetch → load → animate → load assets → scale → position
→ emission material → camera → engine flags → optional save.  `mats0` is
the pre-existing content of `bpy.data.materials`. -/
def mainRun (argv : List String) (fs : FS) (geom : String → MeshGeom)
    (mats0 : List BMaterial) : Except PyErr MainOut :=
  if argv.contains "--" = false then .error (.systemExit 1)
  else
    match argv.indexOf? "--" with
    | none => .error (.systemExit 1)
    | some idx =>
      if idx = argv.length then .error (.systemExit 1)
      else
        match parseCamArgs argv with
        | .error e => .error e
        | .ok cam =>
          match argv[idx + 1]? with
          | none => .error .indexError
          | some root_dir =>
            match fetch_obj_file_paths fs root_dir with
            | .error e => .error e
            | .ok root_dir_obj_paths =>
              let root_dir_objs := load_obj_files geom root_dir_obj_paths
              let anim := build_animation_from_obj_files mats0 root_dir_objs
              match fs_listdir fs "assets" with
              | none => .error (.fileNotFoundError "assets")
              | some assetEntries =>
                let asset_file_paths :=
                  (assetEntries.filter fun x => pyEndsWith x ".obj").map
                    fun x => "assets/" ++ x
                let asset_objs := load_obj_files geom asset_file_paths
                match scale_assets root_dir_objs asset_objs with
                | .error e => .error e
                | .ok scaled =>
                  match position_assets root_dir_objs scaled with
                  | .error e => .error e
                  | .ok positioned =>
                    let r := make_emission_material anim.mats positioned
                    .ok
                      { cam := cam
                        root_dir := root_dir
                        objs := anim.objs
                        assets := r.2
                        mats := r.1
                        keyframes := anim.keyframes
                        frame_start := anim.frame_start
                        frame_end := anim.frame_end
                        camera := place_camera cam.cam_loc cam.cam_rot
                        engine := "CYCLES"
                        device := "GPU"
                        saved := argv.contains "-b" }

/-- Specification-side closed form of the keyframes inserted at one scene
frame `f` for `n` loaded objects: for each object index, one keyframe per
visibility flag whose value is `False` exactly at index `f`. -/
def kfRow (f n : Nat) : List Keyframe :=
  (List.range n).flatMap fun i =>
    [⟨f, i, "hide_viewport", decide (i ≠ f)⟩, ⟨f, i, "hide_render", decide (i ≠ f)⟩]

/-- Specification-side closed form of all keyframes inserted for `n`
loaded objects: rows for scene frames `0 .. n-2` only. -/
def kfClosed (n : Nat) : List Keyframe :=
  (List.range (n - 1)).flatMap fun f => kfRow f n

/-! ## Concrete fixtures used by witness theorems -/

/-- A loaded primary simulation object used in concrete instantiations. -/
def primW : BObj :=
  { name := "frames/simulation_output_0001"
    data_name := "frames/simulation_output_0001"
    dimensions := (4, 5, 6)
    location := (0, 0, 0)
    bound_box := [(1, 2, 3)]
    hide_viewport := false
    hide_render := false
    material_slots := ["s"] }

/-- A backdrop asset object (exact name match). -/
def backdropW : BObj :=
  { name := "assets/backdrop"
    data_name := "assets/backdrop"
    dimensions := (1, 1, 1)
    location := (0, 0, 0)
    bound_box := []
    hide_viewport := false
    hide_render := false
    material_slots := ["s"] }

/-- A light asset object (exact name match). -/
def lightW : BObj :=
  { name := "assets/light"
    data_name := "assets/light"
    dimensions := (1, 1, 1)
    location := (0, 0, 0)
    bound_box := []
    hide_viewport := false
    hide_render := false
    material_slots := ["s"] }

/-- An asset whose name strictly contains `"assets/backdrop"` as a
substring but is not equal to it. -/
def nearMissW : BObj :=
  { name := "assets/backdrop.001"
    data_name := "assets/backdrop.001"
    dimensions := (7, 7, 7)
    location := (9, 9, 9)
    bound_box := []
    hide_viewport := false
    hide_render := false
    material_slots := ["s"] }

/-- An asset matching neither role name. -/
def plainW : BObj :=
  { name := "assets/floor"
    data_name := "assets/floor"
    dimensions := (7, 7, 7)
    location := (9, 9, 9)
    bound_box := []
    hide_viewport := false
    hide_render := false
    material_slots := ["s"] }

/-- A filesystem with a frames directory of mixed extensions and the
`assets` directory the script hard-codes. -/
def fsW : FS :=
  ⟨[("frames", ["simulation_output_0002.obj", "simulation_output_0001.obj", "notes.txt"]),
    ("assets", ["backdrop.obj", "light.obj"])]⟩

/-- A geometry oracle giving every imported mesh the same small geometry. -/
def geomW : String → MeshGeom := fun _ =>
  { dimensions := (4, 5, 6)
    location := (0, 0, 0)
    bound_box := [(1, 2, 3)]
    material_slots := ["s"] }

/-- A Blender-style argument vector with the `--` separator, a root
directory, and the `-b` background flag. -/
def argvW : List String :=
  ["blender", "-b", "sim.blend", "-P", "main.py", "--", "frames"]

/-! ## Helper lemmas -/

theorem exists_ok_of_isOkE {α : Type} {r : Except PyErr α} (h : isOkE r = true) :
    ∃ a, r = .ok a := by
  cases r with
  | ok a => exact ⟨a, rfl⟩
  | error e => simp [isOkE] at h

theorem foldl_max_spec (t : List ℚ) :
    ∀ h : ℚ, t.foldl max h ∈ h :: t ∧ ∀ a ∈ h :: t, a ≤ t.foldl max h := by
  induction t with
  | nil =>
    intro h
    refine ⟨by simp, ?_⟩
    intro a ha
    simp only [List.mem_singleton] at ha
    simp [ha]
  | cons b t ih =>
    intro h
    obtain ⟨ihmem, ihle⟩ := ih (max h b)
    constructor
    · show t.foldl max (max h b) ∈ h :: b :: t
      rcases List.mem_cons.mp ihmem with heq | hmem
      · rcases max_choice h b with hc | hc <;> rw [heq, hc] <;> simp
      · simp [hmem]
    · intro a ha
      show a ≤ t.foldl max (max h b)
      have hhead : max h b ≤ t.foldl max (max h b) := ihle _ (by simp)
      rcases List.mem_cons.mp ha with rfl | ha
      · exact le_trans (le_max_left _ _) hhead
      · rcases List.mem_cons.mp ha with rfl | ha
        · exact le_trans (le_max_right _ _) hhead
        · exact ihle _ (by simp [ha])

theorem foldl_min_spec (t : List ℚ) :
    ∀ h : ℚ, t.foldl min h ∈ h :: t ∧ ∀ a ∈ h :: t, t.foldl min h ≤ a := by
  induction t with
  | nil =>
    intro h
    refine ⟨by simp, ?_⟩
    intro a ha
    simp only [List.mem_singleton] at ha
    simp [ha]
  | cons b t ih =>
    intro h
    obtain ⟨ihmem, ihle⟩ := ih (min h b)
    constructor
    · show t.foldl min (min h b) ∈ h :: b :: t
      rcases List.mem_cons.mp ihmem with heq | hmem
      · rcases min_choice h b with hc | hc <;> rw [heq, hc] <;> simp
      · simp [hmem]
    · intro a ha
      show t.foldl min (min h b) ≤ a
      have hhead : t.foldl min (min h b) ≤ min h b := ihle _ (by simp)
      rcases List.mem_cons.mp ha with rfl | ha
      · exact le_trans hhead (min_le_left _ _)
      · rcases List.mem_cons.mp ha with rfl | ha
        · exact le_trans hhead (min_le_right _ _)
        · exact ihle _ (by simp [ha])

theorem bb_extents_cons (q : ℚ × ℚ × ℚ) (l : List (ℚ × ℚ × ℚ)) :
    bb_extents (q :: l) =
      some ((l.map fun p => p.1).foldl max q.1 - (l.map fun p => p.1).foldl min q.1,
        (l.map fun p => p.2.1).foldl max q.2.1 - (l.map fun p => p.2.1).foldl min q.2.1,
        (l.map fun p => p.2.2).foldl max q.2.2 - (l.map fun p => p.2.2).foldl min q.2.2) := by
  simp [bb_extents, pyMax, pyMin]

/-! ## Claim theorems -/

/-- C1: for every nonempty list of bounding-box corner points, the extent
computation shared by `scale_assets` and `position_assets` returns exactly
(max − min) per axis over the corners' x, y and z coordinates; for
degenerate inputs (a single corner, or all corners coincident) it returns
zero on every axis, and neither function raises on such a primary object. -/
theorem claim_c1 (pts : List (ℚ × ℚ × ℚ)) (hne : pts ≠ []) :
    (∃ xM xm yM ym zM zm,
      bb_extents pts = some (xM - xm, yM - ym, zM - zm) ∧
      (xM ∈ pts.map fun p => p.1) ∧ (∀ a ∈ pts.map fun p => p.1, a ≤ xM) ∧
      (xm ∈ pts.map fun p => p.1) ∧ (∀ a ∈ pts.map fun p => p.1, xm ≤ a) ∧
      (yM ∈ pts.map fun p => p.2.1) ∧ (∀ a ∈ pts.map fun p => p.2.1, a ≤ yM) ∧
      (ym ∈ pts.map fun p => p.2.1) ∧ (∀ a ∈ pts.map fun p => p.2.1, ym ≤ a) ∧
      (zM ∈ pts.map fun p => p.2.2) ∧ (∀ a ∈ pts.map fun p => p.2.2, a ≤ zM) ∧
      (zm ∈ pts.map fun p => p.2.2) ∧ (∀ a ∈ pts.map fun p => p.2.2, zm ≤ a)) ∧
    (∀ q, (∀ r ∈ pts, r = q) → bb_extents pts = some (0, 0, 0)) ∧
    (∀ prim rest assets, prim.bound_box = pts →
      isOkE (scale_assets (prim :: rest) assets) = true ∧
      isOkE (position_assets (prim :: rest) assets) = true) := by
  obtain ⟨q, l, rfl⟩ : ∃ q l, pts = q :: l := by
    cases pts with
    | nil => exact absurd rfl hne
    | cons q l => exact ⟨q, l, rfl⟩
  have hx := foldl_max_spec (l.map fun p => p.1) q.1
  have hxm := foldl_min_spec (l.map fun p => p.1) q.1
  have hy := foldl_max_spec (l.map fun p => p.2.1) q.2.1
  have hym := foldl_min_spec (l.map fun p => p.2.1) q.2.1
  have hz := foldl_max_spec (l.map fun p => p.2.2) q.2.2
  have hzm := foldl_min_spec (l.map fun p => p.2.2) q.2.2
  have hmapx : (q :: l).map (fun p => p.1) = q.1 :: l.map fun p => p.1 := rfl
  have hmapy : (q :: l).map (fun p => p.2.1) = q.2.1 :: l.map fun p => p.2.1 := rfl
  have hmapz : (q :: l).map (fun p => p.2.2) = q.2.2 :: l.map fun p => p.2.2 := rfl
  refine ⟨⟨_, _, _, _, _, _, bb_extents_cons q l, ?_, ?_, ?_, ?_, ?_, ?_, ?_, ?_, ?_, ?_, ?_, ?_⟩, ?_, ?_⟩
  · rw [hmapx]; exact hx.1
  · rw [hmapx]; exact hx.2
  · rw [hmapx]; exact hxm.1
  · rw [hmapx]; exact hxm.2
  · rw [hmapy]; exact hy.1
  · rw [hmapy]; exact hy.2
  · rw [hmapy]; exact hym.1
  · rw [hmapy]; exact hym.2
  · rw [hmapz]; exact hz.1
  · rw [hmapz]; exact hz.2
  · rw [hmapz]; exact hzm.1
  · rw [hmapz]; exact hzm.2
  · -- degenerate: all corners coincident
    intro r hall
    have hq : q = r := hall q (by simp)
    have hconst : ∀ (f : ℚ × ℚ × ℚ → ℚ) a, a ∈ (q :: l).map f → a = f r := by
      intro f a ha
      obtain ⟨p, hp, rfl⟩ := List.mem_map.mp ha
      rw [hall p hp]
    rw [bb_extents_cons]
    have e1 : (l.map fun p => p.1).foldl max q.1 = r.1 :=
      hconst _ _ (by rw [hmapx]; exact hx.1)
    have e2 : (l.map fun p => p.1).foldl min q.1 = r.1 :=
      hconst _ _ (by rw [hmapx]; exact hxm.1)
    have e3 : (l.map fun p => p.2.1).foldl max q.2.1 = r.2.1 :=
      hconst _ _ (by rw [hmapy]; exact hy.1)
    have e4 : (l.map fun p => p.2.1).foldl min q.2.1 = r.2.1 :=
      hconst _ _ (by rw [hmapy]; exact hym.1)
    have e5 : (l.map fun p => p.2.2).foldl max q.2.2 = r.2.2 :=
      hconst _ _ (by rw [hmapz]; exact hz.1)
    have e6 : (l.map fun p => p.2.2).foldl min q.2.2 = r.2.2 :=
      hconst _ _ (by rw [hmapz]; exact hzm.1)
    rw [e1, e2, e3, e4, e5, e6]
    simp
  · -- no error is raised by either function on such a primary object
    intro prim rest assets hprim
    constructor
    · simp [scale_assets, hprim, bb_extents_cons, isOkE]
    · simp [position_assets, hprim, bb_extents_cons, isOkE]

/-- Witness for C1 at the single-corner (degenerate) input. -/
theorem claim_c1_witness :
    bb_extents [((1 : ℚ), 2, 3)] = some (0, 0, 0) :=
  (claim_c1 [(1, 2, 3)] (by simp)).2.1 (1, 2, 3) (by simp)

theorem camStep_loc_of_no_match {opt : String} (h : pyIn "--cam_loc" opt = false) :
    ∀ st st', camStep st opt = .ok st' → st'.cam_loc = st.cam_loc := by
  intro st st' hstep
  unfold camStep at hstep
  rw [h] at hstep
  simp only [Bool.false_eq_true, if_false] at hstep
  split at hstep
  · split at hstep
    · exact absurd hstep (by simp)
    · split at hstep
      · exact absurd hstep (by simp)
      · cases hstep; rfl
  · cases hstep; rfl

theorem camStep_rot_of_no_match {opt : String} (h : pyIn "--cam_rot" opt = false) :
    ∀ st st', camStep st opt = .ok st' → st'.cam_rot = st.cam_rot := by
  intro st st' hstep
  unfold camStep at hstep
  split at hstep
  · exact absurd hstep (by simp)
  · rw [h] at hstep
    simp only [Bool.false_eq_true, if_false] at hstep
    cases hstep
    next heq =>
      split at heq
      · split at heq
        · exact absurd heq (by simp)
        · split at heq
          · exact absurd heq (by simp)
          · cases heq; rfl
      · cases heq; rfl

theorem camStep_loc_lit (st : CamArgs) :
    camStep st "--cam_loc=1,2,3" = .ok { st with cam_loc := [1, 2, 3] } := rfl

theorem camStep_rot_lit (st : CamArgs) :
    camStep st "--cam_rot=90,0,180" =
      .ok { st with cam_rot := [radians 90, radians 0, radians 180] } := rfl

theorem parseCamLoop_loc_pres (l : List String) :
    ∀ st st', (∀ o ∈ l, pyIn "--cam_loc" o = false) →
      parseCamLoop st l = .ok st' → st'.cam_loc = st.cam_loc := by
  induction l with
  | nil => intro st st' _ h; cases h; rfl
  | cons o rest ih =>
    intro st st' hno h
    unfold parseCamLoop at h
    cases hstep : camStep st o with
    | error e => rw [hstep] at h; exact absurd h (by simp)
    | ok st1 =>
      rw [hstep] at h
      have h1 : st1.cam_loc = st.cam_loc :=
        camStep_loc_of_no_match (hno o (by simp)) st st1 hstep
      have h2 : st'.cam_loc = st1.cam_loc :=
        ih st1 st' (fun o' ho' => hno o' (by simp [ho'])) h
      rw [h2, h1]

theorem parseCamLoop_rot_pres (l : List String) :
    ∀ st st', (∀ o ∈ l, pyIn "--cam_rot" o = false) →
      parseCamLoop st l = .ok st' → st'.cam_rot = st.cam_rot := by
  induction l with
  | nil => intro st st' _ h; cases h; rfl
  | cons o rest ih =>
    intro st st' hno h
    unfold parseCamLoop at h
    cases hstep : camStep st o with
    | error e => rw [hstep] at h; exact absurd h (by simp)
    | ok st1 =>
      rw [hstep] at h
      have h1 : st1.cam_rot = st.cam_rot :=
        camStep_rot_of_no_match (hno o (by simp)) st st1 hstep
      have h2 : st'.cam_rot = st1.cam_rot :=
        ih st1 st' (fun o' ho' => hno o' (by simp [ho'])) h
      rw [h2, h1]

theorem parseCamLoop_loc_lit (l : List String) :
    ∀ st st', "--cam_loc=1,2,3" ∈ l →
      (∀ o ∈ l, pyIn "--cam_loc" o = true → o = "--cam_loc=1,2,3") →
      parseCamLoop st l = .ok st' → st'.cam_loc = [1, 2, 3] := by
  induction l with
  | nil => intro st st' hmem; exact absurd hmem (by simp)
  | cons o rest ih =>
    intro st st' hmem hall h
    unfold parseCamLoop at h
    cases hstep : camStep st o with
    | error e => rw [hstep] at h; exact absurd h (by simp)
    | ok st1 =>
      rw [hstep] at h
      by_cases hrest : "--cam_loc=1,2,3" ∈ rest
      · exact ih st1 st' hrest (fun o' ho' => hall o' (by simp [ho'])) h
      · have ho : o = "--cam_loc=1,2,3" := by
          rcases List.mem_cons.mp hmem with heq | hmem'
          · exact heq.symm
          · exact absurd hmem' hrest
        subst ho
        rw [camStep_loc_lit st] at hstep
        cases hstep
        have hnorest : ∀ o' ∈ rest, pyIn "--cam_loc" o' = false := by
          intro o' ho'
          by_contra hne
          have : o' = "--cam_loc=1,2,3" :=
            hall o' (by simp [ho']) (by revert hne; cases pyIn "--cam_loc" o' <;> simp)
          exact hrest (this ▸ ho')
        have := parseCamLoop_loc_pres rest _ st' hnorest h
        rw [this]

theorem parseCamLoop_rot_lit (l : List String) :
    ∀ st st', "--cam_rot=90,0,180" ∈ l →
      (∀ o ∈ l, pyIn "--cam_rot" o = true → o = "--cam_rot=90,0,180") →
      parseCamLoop st l = .ok st' →
      st'.cam_rot = [radians 90, radians 0, radians 180] := by
  induction l with
  | nil => intro st st' hmem; exact absurd hmem (by simp)
  | cons o rest ih =>
    intro st st' hmem hall h
    unfold parseCamLoop at h
    cases hstep : camStep st o with
    | error e => rw [hstep] at h; exact absurd h (by simp)
    | ok st1 =>
      rw [hstep] at h
      by_cases hrest : "--cam_rot=90,0,180" ∈ rest
      · exact ih st1 st' hrest (fun o' ho' => hall o' (by simp [ho'])) h
      · have ho : o = "--cam_rot=90,0,180" := by
          rcases List.mem_cons.mp hmem with heq | hmem'
          · exact heq.symm
          · exact absurd hmem' hrest
        subst ho
        rw [camStep_rot_lit st] at hstep
        cases hstep
        have hnorest : ∀ o' ∈ rest, pyIn "--cam_rot" o' = false := by
          intro o' ho'
          by_contra hne
          have : o' = "--cam_rot=90,0,180" :=
            hall o' (by simp [ho']) (by revert hne; cases pyIn "--cam_rot" o' <;> simp)
          exact hrest (this ▸ ho')
        have := parseCamLoop_rot_pres rest _ st' hnorest h
        rw [this]

/-- C2: CLI parsing.  An argument equal to `--cam_loc=1,2,3` (and no other
argument containing `--cam_loc`) makes the parsed camera location
`(1.0, 2.0, 3.0)`; an argument `--cam_rot=90,0,180` makes the rotation
`(π/2, 0, π)` — angles are stored as coefficients of π, so `[1/2, 0, 1]`
(see `radians`); when no argument contains the flag, the value keeps its
default `(-32, 161.5, 73)` resp. `(radians 75, 0, radians 180)`. -/
theorem claim_c2 (argv : List String) :
    (∀ st, parseCamArgs argv = .ok st →
      "--cam_loc=1,2,3" ∈ argv →
      (∀ o ∈ argv, pyIn "--cam_loc" o = true → o = "--cam_loc=1,2,3") →
      st.cam_loc = [1, 2, 3]) ∧
    (∀ st, parseCamArgs argv = .ok st →
      "--cam_rot=90,0,180" ∈ argv →
      (∀ o ∈ argv, pyIn "--cam_rot" o = true → o = "--cam_rot=90,0,180") →
      st.cam_rot = [1 / 2, 0, 1]) ∧
    (∀ st, parseCamArgs argv = .ok st →
      (∀ o ∈ argv, pyIn "--cam_loc" o = false) →
      st.cam_loc = [-32, 161.5, 73]) ∧
    (∀ st, parseCamArgs argv = .ok st →
      (∀ o ∈ argv, pyIn "--cam_rot" o = false) →
      st.cam_rot = [radians 75, 0, radians 180]) := by
  refine ⟨?_, ?_, ?_, ?_⟩
  · intro st h hmem hall
    exact parseCamLoop_loc_lit argv camDefaults st hmem hall h
  · intro st h hmem hall
    have := parseCamLoop_rot_lit argv camDefaults st hmem hall h
    rw [this]
    norm_num [radians]
  · intro st h hno
    have := parseCamLoop_loc_pres argv camDefaults st hno h
    rw [this]
    rfl
  · intro st h hno
    have := parseCamLoop_rot_pres argv camDefaults st hno h
    rw [this]
    rfl

/-- Witness for C2: a concrete Blender-style argument vector carrying both
camera flags. -/
theorem claim_c2_witness :
    ∃ st, parseCamArgs ["blender", "--", "frames", "--cam_loc=1,2,3", "--cam_rot=90,0,180"] = .ok st ∧
      st.cam_loc = [1, 2, 3] ∧ st.cam_rot = [1 / 2, 0, 1] := by
  have hok : isOkE (parseCamArgs ["blender", "--", "frames", "--cam_loc=1,2,3", "--cam_rot=90,0,180"]) = true := rfl
  obtain ⟨st, hst⟩ := exists_ok_of_isOkE hok
  have h := claim_c2 ["blender", "--", "frames", "--cam_loc=1,2,3", "--cam_rot=90,0,180"]
  refine ⟨st, hst, h.1 st hst (by simp) ?_, h.2.1 st hst (by simp) ?_⟩
  · decide
  · decide

/-- C3: when the `--` separator is missing from the argument vector the
program prints usage and exits with status 1 — but when `--` is present
with no positional argument after it, the dead guard
`sys.argv.index("--") == len(sys.argv)` never fires (`index` is always
smaller than `len`), and `sys.argv[index + 1]` raises an unhandled
`IndexError` instead of the claimed usage-and-exit-1. -/
theorem claim_c3 :
    (∀ argv (fs : FS) (geom : String → MeshGeom) mats0,
      argv.contains "--" = false →
      mainRun argv fs geom mats0 = .error (.systemExit 1)) ∧
    mainRun ["blender", "--"] fsW geomW [] = .error .indexError := by
  constructor
  · intro argv fs geom mats0 h
    unfold mainRun
    rw [h]
    rfl
  · rfl

/-- Witness for C3's universally quantified part: a vector without `--`
exits with usage status 1. -/
theorem claim_c3_witness :
    mainRun ["blender", "-P", "main.py"] fsW geomW [] = .error (.systemExit 1) :=
  claim_c3.1 ["blender", "-P", "main.py"] fsW geomW [] rfl

/-- C6: on an existing directory, `fetch_obj_file_paths` returns exactly
the entries ending in `.obj`, sorted lexicographically (by code points),
each joined with the root directory as prefix. -/
theorem claim_c6 (fs : FS) (root : String) (entries : List String)
    (h : fs_listdir fs root = some entries) :
    ∃ ns, fetch_obj_file_paths fs root = .ok (ns.map (path_join root)) ∧
      ns.Perm (entries.filter fun p => pyEndsWith p ".obj") ∧
      List.Sorted (fun a b : String => a.data ≤ b.data) ns ∧
      ∀ p, p ∈ ns ↔ p ∈ entries ∧ pyEndsWith p ".obj" = true := by
  have hex : fs_exists fs root = true := by
    unfold fs_exists
    unfold fs_listdir at h
    rw [h]
    rfl
  refine ⟨pySortedStr (entries.filter fun p => pyEndsWith p ".obj"), ?_, ?_, ?_, ?_⟩
  · unfold fetch_obj_file_paths
    rw [hex, h]
    simp
  · exact List.perm_insertionSort _ _
  · exact List.sorted_insertionSort _ _
  · intro p
    unfold pySortedStr
    rw [(List.perm_insertionSort (fun a b : String => a.data ≤ b.data) _).mem_iff]
    simp [List.mem_filter]

/-- Witness for C6 on a concrete mixed-extension directory. -/
theorem claim_c6_witness :
    ∃ ns, fetch_obj_file_paths fsW "frames" = .ok (ns.map (path_join "frames")) ∧
      ns.Perm (["simulation_output_0002.obj", "simulation_output_0001.obj",
        "notes.txt"].filter fun p => pyEndsWith p ".obj") ∧
      List.Sorted (fun a b : String => a.data ≤ b.data) ns ∧
      ∀ p, p ∈ ns ↔
        p ∈ ["simulation_output_0002.obj", "simulation_output_0001.obj", "notes.txt"] ∧
          pyEndsWith p ".obj" = true :=
  claim_c6 fsW "frames"
    ["simulation_output_0002.obj", "simulation_output_0001.obj", "notes.txt"] rfl

/-- C7: `fetch_obj_file_paths` raises `RuntimeError` naming the missing
path exactly when the root directory does not exist; on an existing root
it raises nothing. -/
theorem claim_c7 (fs : FS) (root_dir : String) :
    (fs_exists fs root_dir = false →
      fetch_obj_file_paths fs root_dir =
        .error (.runtimeError (root_dir ++ " does not exist!"))) ∧
    (fs_exists fs root_dir = true →
      isOkE (fetch_obj_file_paths fs root_dir) = true) := by
  constructor
  · intro h
    unfold fetch_obj_file_paths
    rw [h]
    rfl
  · intro h
    obtain ⟨entries, he⟩ : ∃ e, fs.dirs.lookup root_dir = some e := by
      have : (fs.dirs.lookup root_dir).isSome = true := h
      exact Option.isSome_iff_exists.mp this
    unfold fetch_obj_file_paths fs_listdir
    rw [h, he]
    rfl

/-- Witness for C7: a missing root raises the named error, an existing
root does not raise. -/
theorem claim_c7_witness :
    fetch_obj_file_paths fsW "nope" = .error (.runtimeError "nope does not exist!") ∧
      isOkE (fetch_obj_file_paths fsW "frames") = true :=
  ⟨(claim_c7 fsW "nope").1 rfl, (claim_c7 fsW "frames").2 rfl⟩

/-- C8: a completed run of `__main__` invokes the save operation exactly
when `-b` occurs among the arguments. -/
theorem claim_c8 (argv : List String) (fs : FS) (geom : String → MeshGeom)
    (mats0 : List BMaterial) (out : MainOut)
    (h : mainRun argv fs geom mats0 = .ok out) :
    out.saved = true ↔ "-b" ∈ argv := by
  unfold mainRun at h
  simp only [] at h
  split at h
  · exact absurd h (by simp)
  · split at h
    · exact absurd h (by simp)
    · split at h
      · exact absurd h (by simp)
      · split at h
        · exact absurd h (by simp)
        · split at h
          · exact absurd h (by simp)
          · split at h
            · exact absurd h (by simp)
            · split at h
              · exact absurd h (by simp)
              · split at h
                · exact absurd h (by simp)
                · split at h
                  · exact absurd h (by simp)
                  · cases h
                    show argv.contains "-b" = true ↔ "-b" ∈ argv
                    exact ⟨fun hh => List.mem_of_elem_eq_true hh,
                      fun hh => List.elem_eq_true_of_mem hh⟩

/-- Witness for C8: a completed concrete run with `-b` present. -/
theorem claim_c8_witness :
    ∃ out, mainRun argvW fsW geomW [] = .ok out ∧ (out.saved = true ↔ "-b" ∈ argvW) := by
  obtain ⟨out, hout⟩ :=
    exists_ok_of_isOkE (show isOkE (mainRun argvW fsW geomW []) = true from rfl)
  exact ⟨out, hout, claim_c8 argvW fsW geomW [] out hout⟩

theorem countP_eraseP_sub (p : BMaterial → Bool) (l : List BMaterial)
    (h : 0 < l.countP p) : (l.eraseP p).countP p = l.countP p - 1 := by
  induction l with
  | nil => simp at h
  | cons a t ih =>
    cases hpa : p a with
    | true => simp [List.eraseP_cons, hpa, List.countP_cons_of_pos _ _ hpa]
    | false =>
      have hlt : 0 < t.countP p := by
        rwa [List.countP_cons_of_neg _ _ (by simp [hpa])] at h
      simp [List.eraseP_cons, hpa, List.countP_cons_of_neg _ _ (by simp [hpa] : ¬ p a = true),
        ih hlt]

theorem find?_append_left_none (p : BMaterial → Bool) (l1 l2 : List BMaterial)
    (h : ∀ x ∈ l1, p x = false) : (l1 ++ l2).find? p = l2.find? p := by
  induction l1 with
  | nil => rfl
  | cons a t ih =>
    rw [List.cons_append, List.find?_cons_of_neg _ (by simp [h a (by simp)]),
      ih fun x hx => h x (by simp [hx])]

theorem rebuild_material_unique (mats : List BMaterial) (n : String) (m : BMaterial)
    (hm : m.name = n) (h : mats.countP (fun x => x.name = n) = 1) :
    (((if (mats_get mats n).isSome then mats_removeName mats n else mats) ++ [m]).countP
        (fun x => x.name = n) = 1) ∧
      mats_get ((if (mats_get mats n).isSome then mats_removeName mats n else mats) ++ [m]) n
        = some m := by
  have hpos : 0 < mats.countP fun x => x.name = n := by omega
  have hsome : (mats_get mats n).isSome = true := by
    unfold mats_get
    rw [List.find?_isSome]
    exact List.countP_pos_iff.mp hpos
  rw [if_pos hsome]
  have herase : (mats_removeName mats n).countP (fun x => x.name = n) = 0 := by
    unfold mats_removeName
    rw [countP_eraseP_sub _ _ hpos, h]
  have hall : ∀ x ∈ mats_removeName mats n, (decide (x.name = n)) = false := by
    intro x hx
    have := List.countP_eq_zero.mp herase x hx
    simpa using this
  constructor
  · rw [List.countP_append, herase]
    simp [hm]
  · unfold mats_get
    rw [find?_append_left_none _ _ _ hall, List.find?_cons_of_pos _ (by simp [hm])]

theorem smc_once (mats : List BMaterial) (objs : List BObj)
    (h : mats.countP (fun m => m.name = "Hair") = 1) :
    ((set_material_for_collection mats objs).1.countP (fun m => m.name = "Hair") = 1) ∧
      mats_get (set_material_for_collection mats objs).1 "Hair" = some hairMaterial := by
  have := rebuild_material_unique mats "Hair" hairMaterial rfl h
  exact this

theorem mee_once (mats : List BMaterial) (objs : List BObj)
    (h : mats.countP (fun m => m.name = "Light") = 1) :
    ((make_emission_material mats objs).1.countP (fun m => m.name = "Light") = 1) ∧
      mats_get (make_emission_material mats objs).1 "Light" = some lightMaterial := by
  have := rebuild_material_unique mats "Light" lightMaterial rfl h
  exact this

/-- C5: starting from a material store holding exactly one pre-existing
material named "Hair" (resp. "Light"), invoking the material builder
twice leaves exactly one material of that name — the freshly built node
graph, with no accumulated duplicates. -/
theorem claim_c5 (mats : List BMaterial) (objs1 objs2 objs3 objs4 : List BObj)
    (hHair : mats.countP (fun m => m.name = "Hair") = 1)
    (hLight : mats.countP (fun m => m.name = "Light") = 1) :
    (((set_material_for_collection (set_material_for_collection mats objs1).1 objs2).1.countP
        (fun m => m.name = "Hair") = 1) ∧
      mats_get (set_material_for_collection
          (set_material_for_collection mats objs1).1 objs2).1 "Hair" = some hairMaterial) ∧
    (((make_emission_material (make_emission_material mats objs3).1 objs4).1.countP
        (fun m => m.name = "Light") = 1) ∧
      mats_get (make_emission_material
          (make_emission_material mats objs3).1 objs4).1 "Light" = some lightMaterial) := by
  constructor
  · exact smc_once _ objs2 (smc_once mats objs1 hHair).1
  · exact mee_once _ objs4 (mee_once mats objs3 hLight).1

/-- Witness for C5 on a concrete store with one stale "Hair" and one
stale "Light" material. -/
theorem claim_c5_witness :
    (((set_material_for_collection (set_material_for_collection
          [⟨"Hair", [], []⟩, ⟨"Light", ["Old"], []⟩] []).1 []).1.countP
        (fun m => m.name = "Hair") = 1) ∧
      mats_get (set_material_for_collection (set_material_for_collection
          [⟨"Hair", [], []⟩, ⟨"Light", ["Old"], []⟩] []).1 []).1 "Hair" = some hairMaterial) ∧
    (((make_emission_material (make_emission_material
          [⟨"Hair", [], []⟩, ⟨"Light", ["Old"], []⟩] []).1 []).1.countP
        (fun m => m.name = "Light") = 1) ∧
      mats_get (make_emission_material (make_emission_material
          [⟨"Hair", [], []⟩, ⟨"Light", ["Old"], []⟩] []).1 []).1 "Light" = some lightMaterial) :=
  claim_c5 [⟨"Hair", [], []⟩, ⟨"Light", ["Old"], []⟩] [] [] [] [] (by rfl) (by rfl)

theorem scaleStepObj_skip (x z p y : ℚ) (o : BObj)
    (h1 : o.data_name ≠ "assets/backdrop") (h2 : o.data_name ≠ "assets/light") :
    scaleStepObj x z p y o = o := by
  unfold scaleStepObj
  rw [if_neg h1, if_neg h2]

theorem scaleStepObj_backdrop (x z p y : ℚ) (o : BObj)
    (h : o.data_name = "assets/backdrop") :
    scaleStepObj x z p y o = { o with dimensions := (x * 3, y * 2.5, z * 1.5) } := by
  unfold scaleStepObj
  rw [if_pos h, if_neg (by rw [h]; decide)]

theorem scaleStepObj_light (x z p y : ℚ) (o : BObj)
    (h : o.data_name = "assets/light") :
    scaleStepObj x z p y o = { o with dimensions := (x * 0.5, p, z * 0.5) } := by
  unfold scaleStepObj
  rw [if_pos h, if_neg (by rw [h]; decide)]

theorem positionStepObj_skip (x y z : ℚ) (o : BObj)
    (h1 : o.data_name ≠ "assets/backdrop") (h2 : o.data_name ≠ "assets/light") :
    positionStepObj x y z o = o := by
  unfold positionStepObj
  rw [if_neg h1, if_neg h2]

theorem positionStepObj_backdrop (x y z : ℚ) (o : BObj)
    (h : o.data_name = "assets/backdrop") :
    positionStepObj x y z o = { o with location := (-x * 0.5, y, z * 0.1) } := by
  unfold positionStepObj
  rw [if_pos h, if_neg (by rw [h]; decide)]

theorem positionStepObj_light (x y z : ℚ) (o : BObj)
    (h : o.data_name = "assets/light") :
    positionStepObj x y z o = { o with location := (-x * 0.5, y, z * 1.2) } := by
  unfold positionStepObj
  rw [if_pos h, if_neg (by rw [h]; decide)]

theorem scale_assets_eq (prim : BObj) (rest assets : List BObj) (x y z : ℚ)
    (hbb : bb_extents prim.bound_box = some (x, y, z)) :
    scale_assets (prim :: rest) assets =
      .ok (scaleList x z prim.dimensions.2.1 y assets) := by
  simp only [scale_assets, hbb]

theorem position_assets_eq (prim : BObj) (rest assets : List BObj) (x y z : ℚ)
    (hbb : bb_extents prim.bound_box = some (x, y, z)) :
    position_assets (prim :: rest) assets =
      .ok (assets.map (positionStepObj x y z)) := by
  simp only [position_assets, hbb]

theorem scaleList_get (x z p : ℚ) (l : List BObj) :
    ∀ (y : ℚ) (i : ℕ) (a : BObj), l[i]? = some a →
      ∃ w, (scaleList x z p y l)[i]? = some (scaleStepObj x z p w a) := by
  induction l with
  | nil => intro y i a h; simp at h
  | cons o rest ih =>
    intro y i a h
    cases i with
    | zero =>
      rw [List.getElem?_cons_zero] at h
      cases h
      refine ⟨y, ?_⟩
      rw [scaleList, List.getElem?_cons_zero]
    | succ n =>
      rw [List.getElem?_cons_succ] at h
      obtain ⟨w, hw⟩ := ih (if o.data_name = "assets/light" then p else y) n a h
      refine ⟨w, ?_⟩
      rw [scaleList, List.getElem?_cons_succ]
      exact hw

theorem scaleList_length (x z p : ℚ) : ∀ (y : ℚ) (l : List BObj),
    (scaleList x z p y l).length = l.length := by
  intro y l
  induction l generalizing y with
  | nil => rfl
  | cons o rest ih => rw [scaleList]; simp [ih]

theorem scaleList_append (x z p : ℚ) (l1 : List BObj) : ∀ (l2 : List BObj) (y : ℚ),
    scaleList x z p y (l1 ++ l2) =
      scaleList x z p y l1 ++
        scaleList x z p
          (if l1.any fun o => o.data_name = "assets/light" then p else y) l2 := by
  induction l1 with
  | nil => intro l2 y; simp [scaleList]
  | cons o t ih =>
    intro l2 y
    rw [List.cons_append, scaleList, scaleList, ih, List.cons_append]
    by_cases ho : o.data_name = "assets/light"
    · simp [ho, List.any_cons]
    · simp [ho, List.any_cons]

/-- C4 (amended): an asset object's dimensions (`scale_assets`) resp.
location (`position_assets`) are modified only when its `data.name` is
exactly equal to `"assets/backdrop"` or `"assets/light"` — matching is by
string equality, not substring presence — and every other asset object
passes through completely unchanged. -/
theorem claim_c4 (all_obj_objects assets : List BObj) :
    (∀ (out : List BObj), scale_assets all_obj_objects assets = .ok out →
      ∀ (i : ℕ) (a : BObj), assets[i]? = some a →
        (a.data_name ≠ "assets/backdrop" → a.data_name ≠ "assets/light" →
          out[i]? = some a) ∧
        (a.data_name = "assets/backdrop" →
          ∃ d, out[i]? = some { a with dimensions := d }) ∧
        (a.data_name = "assets/light" →
          ∃ d, out[i]? = some { a with dimensions := d })) ∧
    (∀ (out : List BObj), position_assets all_obj_objects assets = .ok out →
      ∀ (i : ℕ) (a : BObj), assets[i]? = some a →
        (a.data_name ≠ "assets/backdrop" → a.data_name ≠ "assets/light" →
          out[i]? = some a) ∧
        (a.data_name = "assets/backdrop" →
          ∃ lc, out[i]? = some { a with location := lc }) ∧
        (a.data_name = "assets/light" →
          ∃ lc, out[i]? = some { a with location := lc })) := by
  constructor
  · intro out h i a ha
    cases all_obj_objects with
    | nil => simp [scale_assets] at h
    | cons prim rest =>
      cases hbbe : bb_extents prim.bound_box with
      | none => simp [scale_assets, hbbe] at h
      | some v =>
        obtain ⟨x, y, z⟩ := v
        rw [scale_assets_eq prim rest assets x y z hbbe] at h
        cases h
        obtain ⟨w, hw⟩ := scaleList_get x z prim.dimensions.2.1 assets y i a ha
        refine ⟨?_, ?_, ?_⟩
        · intro h1 h2
          rw [hw, scaleStepObj_skip _ _ _ _ _ h1 h2]
        · intro hbd
          exact ⟨_, by rw [hw, scaleStepObj_backdrop _ _ _ _ _ hbd]⟩
        · intro hlt
          exact ⟨_, by rw [hw, scaleStepObj_light _ _ _ _ _ hlt]⟩
  · intro out h i a ha
    cases all_obj_objects with
    | nil => simp [position_assets] at h
    | cons prim rest =>
      cases hbbe : bb_extents prim.bound_box with
      | none => simp [position_assets, hbbe] at h
      | some v =>
        obtain ⟨x, y, z⟩ := v
        rw [position_assets_eq prim rest assets x y z hbbe] at h
        cases h
        rw [List.getElem?_map, ha]
        refine ⟨?_, ?_, ?_⟩
        · intro h1 h2
          rw [Option.map_some', positionStepObj_skip _ _ _ _ h1 h2]
        · intro hbd
          exact ⟨_, by rw [Option.map_some', positionStepObj_backdrop _ _ _ _ hbd]⟩
        · intro hlt
          exact ⟨_, by rw [Option.map_some', positionStepObj_light _ _ _ _ hlt]⟩

/-- Counterexample for C4 as stated: `nearMissW.data_name` contains the
exact substring `"assets/backdrop"`, yet neither its dimensions nor its
location are modified — matching is not by substring presence. -/
theorem claim_c4_counterexample :
    pyIn "assets/backdrop" nearMissW.data_name = true ∧
      scale_assets [primW] [nearMissW] = .ok [nearMissW] ∧
      position_assets [primW] [nearMissW] = .ok [nearMissW] :=
  ⟨rfl, rfl, rfl⟩

/-- Witness for C4 (amended) on a concrete unmatched asset. -/
theorem claim_c4_witness :
    ∃ out, scale_assets [primW] [plainW] = .ok out ∧ out[0]? = some plainW := by
  obtain ⟨out, hout⟩ :=
    exists_ok_of_isOkE (show isOkE (scale_assets [primW] [plainW]) = true from rfl)
  exact ⟨out, hout,
    ((claim_c4 [primW] [plainW]).1 out hout 0 plainW rfl).1 (by decide) (by decide)⟩

/-- C10: the dimensions `scale_assets` gives a backdrop depend on the
order of the asset list — the backdrop's y dimension is 2.5 × the
bounding-box y-extent only when no `"assets/light"` object precedes it;
otherwise the loop variable `y` has been overwritten with
`all_obj_objects[0].dimensions` y-component and the backdrop is sized with
that value instead. -/
theorem claim_c10 (prim : BObj) (rest l1 l2 : List BObj) (bd : BObj) (x y z : ℚ)
    (hbb : bb_extents prim.bound_box = some (x, y, z))
    (hbd : bd.data_name = "assets/backdrop") :
    ∀ (out : List BObj), scale_assets (prim :: rest) (l1 ++ bd :: l2) = .ok out →
      out[l1.length]? = some { bd with dimensions :=
        (x * 3,
          (if l1.any fun o => o.data_name = "assets/light" then prim.dimensions.2.1
            else y) * 2.5,
          z * 1.5) } := by
  intro out h
  rw [scale_assets_eq prim rest _ x y z hbb] at h
  cases h
  have hlen : (scaleList x z prim.dimensions.2.1 y l1).length = l1.length :=
    scaleList_length _ _ _ _ _
  rw [scaleList_append, List.getElem?_append_right (by rw [hlen]), hlen, Nat.sub_self,
    scaleList, List.getElem?_cons_zero, scaleStepObj_backdrop _ _ _ _ _ hbd]

/-- Witness for C10: with a light listed before the backdrop, the backdrop
is sized from the primary object's `dimensions.y` (= 5), not from the
bounding-box y-extent (= 0 here). -/
theorem claim_c10_witness :
    ∃ out, scale_assets [primW] [lightW, backdropW] = .ok out ∧
      out[1]? = some { backdropW with dimensions :=
        ((0 : ℚ) * 3,
          (if [lightW].any fun o => o.data_name = "assets/light" then primW.dimensions.2.1
            else 0) * 2.5,
          (0 : ℚ) * 1.5) } := by
  obtain ⟨out, hout⟩ :=
    exists_ok_of_isOkE (show isOkE (scale_assets [primW] [lightW, backdropW]) = true from rfl)
  have hbb : bb_extents primW.bound_box = some (0, 0, 0) := by
    show bb_extents [(1, 2, 3)] = some (0, 0, 0)
    rw [bb_extents_cons]
    norm_num
  exact ⟨out, hout, claim_c10 primW [] [lightW] [] backdropW 0 0 0 hbb rfl out hout⟩

theorem flatMap_fst_eq (g : ℕ → List Keyframe) (l : List (ℕ × BObj)) :
    l.flatMap (fun p => g p.1) = (l.map Prod.fst).flatMap g := by
  induction l with
  | nil => rfl
  | cons a t ih => simp [List.flatMap_cons, ih]

theorem setFrameVis_kfs (f : ℕ) (objs : List BObj) :
    (setFrameVis f objs).2 = kfRow f objs.length := by
  show objs.enum.flatMap (fun p =>
      [⟨f, p.1, "hide_viewport", decide (p.1 ≠ f)⟩,
       ⟨f, p.1, "hide_render", decide (p.1 ≠ f)⟩]) = kfRow f objs.length
  rw [flatMap_fst_eq (fun i =>
      [⟨f, i, "hide_viewport", decide (i ≠ f)⟩,
       ⟨f, i, "hide_render", decide (i ≠ f)⟩]) objs.enum,
    List.enum_map_fst]
  rfl

theorem setFrameVis_len (f : ℕ) (objs : List BObj) :
    (setFrameVis f objs).1.length = objs.length := by
  simp [setFrameVis]

theorem animFold_spec (frames : List ℕ) : ∀ (objs : List BObj) (acc : List Keyframe),
    ((frames.foldl (fun (st : List BObj × List Keyframe) frame =>
        let r := setFrameVis frame st.1
        (r.1, st.2 ++ r.2)) (objs, acc)).2 =
      acc ++ frames.flatMap fun f => kfRow f objs.length) ∧
    (frames.foldl (fun (st : List BObj × List Keyframe) frame =>
        let r := setFrameVis frame st.1
        (r.1, st.2 ++ r.2)) (objs, acc)).1.length = objs.length := by
  induction frames with
  | nil => intro objs acc; simp
  | cons f t ih =>
    intro objs acc
    simp only [List.foldl_cons, List.flatMap_cons]
    have h := ih (setFrameVis f objs).1 (acc ++ (setFrameVis f objs).2)
    constructor
    · rw [h.1, setFrameVis_kfs, setFrameVis_len, List.append_assoc]
    · rw [h.2, setFrameVis_len]

/-- C9: for `n` loaded objects, `build_animation_from_obj_files` sets the
scene frame range to `[0, n-1]` but inserts visibility keyframes only for
frames `0 .. n-2` (the loop is `range(n-1)`); on every keyframed frame `f`
and object index `i`, both flags are keyframed with value `False` exactly
when `i = f` and `True` otherwise, and the final frame `n-1` receives no
keyframes at all. -/
theorem claim_c9 (mats : List BMaterial) (objs : List BObj) :
    (build_animation_from_obj_files mats objs).frame_start = 0 ∧
    (build_animation_from_obj_files mats objs).frame_end = (objs.length : ℤ) - 1 ∧
    (build_animation_from_obj_files mats objs).keyframes = kfClosed objs.length ∧
    (∀ kf ∈ (build_animation_from_obj_files mats objs).keyframes,
      kf.frame + 1 < objs.length) ∧
    (∀ (f i : ℕ) (v : Bool), f + 1 < objs.length → i < objs.length →
      (((⟨f, i, "hide_viewport", v⟩ : Keyframe) ∈
          (build_animation_from_obj_files mats objs).keyframes) ↔ v = decide (i ≠ f)) ∧
      (((⟨f, i, "hide_render", v⟩ : Keyframe) ∈
          (build_animation_from_obj_files mats objs).keyframes) ↔ v = decide (i ≠ f))) := by
  have hkey : (build_animation_from_obj_files mats objs).keyframes =
      kfClosed objs.length := by
    unfold build_animation_from_obj_files kfClosed
    dsimp only
    rw [(animFold_spec (List.range (objs.length - 1)) objs []).1]
    simp
  refine ⟨rfl, rfl, hkey, ?_, ?_⟩
  · intro kf hkf
    rw [hkey] at hkf
    unfold kfClosed kfRow at hkf
    rw [List.mem_flatMap] at hkf
    obtain ⟨f, hf, hkf⟩ := hkf
    rw [List.mem_flatMap] at hkf
    obtain ⟨i, _, hkf⟩ := hkf
    rw [List.mem_range] at hf
    simp only [List.mem_cons, List.not_mem_nil, or_false] at hkf
    rcases hkf with h | h
    · subst h; simp only; omega
    · subst h; simp only; omega
  · intro f i v hf hi
    rw [hkey]
    unfold kfClosed kfRow
    constructor
    · constructor
      · intro hv
        rw [List.mem_flatMap] at hv
        obtain ⟨a, ha, hv⟩ := hv
        rw [List.mem_flatMap] at hv
        obtain ⟨b, hb, hv⟩ := hv
        simp only [List.mem_cons, List.not_mem_nil, or_false] at hv
        rcases hv with h | h
        · simp only [Keyframe.mk.injEq] at h
          rw [h.2.2.2, h.1, h.2.1]
        · simp only [Keyframe.mk.injEq] at h
          exact absurd h.2.2.1 (by decide)
      · intro hv
        subst hv
        refine List.mem_flatMap.mpr ⟨f, List.mem_range.mpr (by omega), ?_⟩
        refine List.mem_flatMap.mpr ⟨i, List.mem_range.mpr hi, ?_⟩
        simp
    · constructor
      · intro hv
        rw [List.mem_flatMap] at hv
        obtain ⟨a, ha, hv⟩ := hv
        rw [List.mem_flatMap] at hv
        obtain ⟨b, hb, hv⟩ := hv
        simp only [List.mem_cons, List.not_mem_nil, or_false] at hv
        rcases hv with h | h
        · simp only [Keyframe.mk.injEq] at h
          exact absurd h.2.2.1 (by decide)
        · simp only [Keyframe.mk.injEq] at h
          rw [h.2.2.2, h.1, h.2.1]
      · intro hv
        subst hv
        refine List.mem_flatMap.mpr ⟨f, List.mem_range.mpr (by omega), ?_⟩
        refine List.mem_flatMap.mpr ⟨i, List.mem_range.mpr hi, ?_⟩
        simp

/-- Witness for C9 on three loaded objects: the frame range ends at 2 and
frame 0 keyframes object 1 as hidden. -/
theorem claim_c9_witness :
    (build_animation_from_obj_files [] [primW, primW, primW]).frame_end = 2 ∧
      ((⟨0, 1, "hide_viewport", true⟩ : Keyframe) ∈
        (build_animation_from_obj_files [] [primW, primW, primW]).keyframes) := by
  have h := claim_c9 [] [primW, primW, primW]
  constructor
  · rw [h.2.1]; norm_num
  · exact (h.2.2.2.2 0 1 true (by norm_num) (by norm_num)).1.mpr (by decide)
